import Mathlib

/-!
Verification of `princezaim/financebot` (`src/main.py`) against its
natural-language specification.  The Python source is shallowly embedded:
strings are `List Char` / `String`, machine integers are `Nat`, fallible
operations return `Option`, the process-local session dictionary is a map
`String → Option Context`, and every outbound I/O call (Telegram, the
user's Google Apps Script backend) is passed in as an explicit parameter
describing the response the environment produced.
-/

namespace Financebot

/-! ## Python string primitives -/

/-- Python whitespace for `str.split()` / `str.strip()` / regex `\s`:
tab, newline, vertical tab, form feed, carriage return, space. -/
def pyWs (c : Char) : Bool :=
  c = ' ' || c = '\t' || c = '\n' || c = '\x0b' || c = '\x0c' || c = '\r'

/-- Python `str.strip()` on a character list. -/
def pyStripL (l : List Char) : List Char :=
  ((l.dropWhile pyWs).reverse.dropWhile pyWs).reverse

/-- Worker for `pySplit`: accumulates the current word (reversed). -/
def pySplitAux : List Char → List Char → List (List Char)
  | [], acc => if acc.isEmpty then [] else [acc.reverse]
  | c :: rest, acc =>
    if pyWs c then
      if acc.isEmpty then pySplitAux rest []
      else acc.reverse :: pySplitAux rest []
    else pySplitAux rest (c :: acc)

/-- Python `str.split()` (no argument): split on whitespace runs,
dropping empty words. -/
def pySplit (l : List Char) : List (List Char) :=
  pySplitAux l []

/-- `' '.join ws` on character-list words. -/
def joinWordsC : List (List Char) → List Char
  | [] => []
  | [w] => w
  | w :: v :: ws => w ++ ' ' :: joinWordsC (v :: ws)

/-- Python `needle in haystack` for strings (contiguous substring test). -/
def hasSub (needle : List Char) : List Char → Bool
  | [] => needle.isEmpty
  | l@(_ :: rest) => needle.isPrefixOf l || hasSub needle rest

/-- Python `str.lower()` (ASCII model, matching the bot's inputs). -/
def pyLower (l : List Char) : List Char :=
  l.map Char.toLower

/-- Numeric value of a run of decimal digits. -/
def natOfDigits (l : List Char) : Nat :=
  l.foldl (fun a c => a * 10 + (c.toNat - 48)) 0

/-- Python `int(s)` restricted to the strings produced by the amount
normalization (only decimal digits can remain): succeeds exactly on a
non-empty all-digit string, raising `ValueError` (here `none`) otherwise.
The `ValueError` is caught by the extractors' `try/except`, which makes
the whole extraction return `None`. -/
def pyIntChars (l : List Char) : Option Nat :=
  if !l.isEmpty && l.all Char.isDigit then some (natOfDigits l) else none

/-! ## Locale amount normalization

Both `extract_shopee_delivery` and `extract_aladin_deposito` contain the
identical block

    if ',' in amount_str:
        amount_str = amount_str.replace('.', '').split(',')[0]
    else:
        amount_str = amount_str.replace('.', '')
    data['amount'] = int(amount_str)

which we factor into `parse_amount` (`int` failure modelled by `none`). -/

def parse_amount (l : List Char) : Option Nat :=
  if l.contains ',' then
    pyIntChars ((l.filter (· ≠ '.')).takeWhile (· ≠ ','))
  else
    pyIntChars (l.filter (· ≠ '.'))

/-- The amount value as the specification words it: the digits before the
decimal comma (all of the string when there is no comma) with every `.`
removed; no value when no digit remains. -/
def claimAmount (l : List Char) : Option Nat :=
  let kept :=
    if l.contains ',' then (l.takeWhile (· ≠ ',')).filter (· ≠ '.')
    else l.filter (· ≠ '.')
  if kept.isEmpty then none else some (natOfDigits kept)

/-! ## Regex models for the extraction patterns

Each `re.search` call in `src/main.py` uses one fixed pattern; we model
each pattern by a direct scanner with the same semantics (leftmost match,
greedy repetition with the pattern-specific backtracking behaviour, lazy
`.+?` for the title capture). -/

/-- Does the list start with the literal `Variasi:` terminator? -/
def startsVariasi (l : List Char) : Bool :=
  "Variasi:".data.isPrefixOf l

/-- Continuation of the lazy capture `.+?` against the terminator
alternation `(?:\n|Variasi:|$)`: after at least one captured character,
stop at the earliest newline, `Variasi:`, or end of input. -/
def captureTitle : List Char → List Char
  | [] => []
  | c :: rest =>
    if c = '\n' then []
    else if startsVariasi (c :: rest) then []
    else c :: captureTitle rest

/-- Try the body of patterns `1\.\s(.+?)(?:\n|Variasi:|$)` at one start
position: `1` `.` then one whitespace, then a lazy non-empty capture of
non-newline characters (so the character after the whitespace must exist
and not be a newline). -/
def titleMatchAt : List Char → Option (List Char)
  | '1' :: '.' :: c :: d :: rest =>
    if pyWs c && d ≠ '\n' then some (d :: captureTitle rest) else none
  | _ => none

/-- `re.search` with the first title pattern: leftmost start position. -/
def findP1 : List Char → Option (List Char)
  | [] => none
  | c :: rest =>
    match titleMatchAt (c :: rest) with
    | some cap => some cap
    | none => findP1 rest

/-- Start positions of the second title pattern `(?:^|\n)1\.\s(...)`:
after each newline (the start of the string is handled in `findP2`). -/
def findP2Go : List Char → Option (List Char)
  | [] => none
  | '\n' :: rest =>
    (match titleMatchAt rest with
     | some cap => some cap
     | none => findP2Go rest)
  | _ :: rest => findP2Go rest

/-- `re.search` with the second title pattern. -/
def findP2 (l : List Char) : Option (List Char) :=
  match titleMatchAt l with
  | some cap => some cap
  | none => findP2Go l

/-- The `for pattern in title_patterns` loop: first matching pattern wins. -/
def findShopeeTitle (body : List Char) : Option (List Char) :=
  match findP1 body with
  | some cap => some cap
  | none => findP2 body

/-- Character class `[\d.,]` of the amount capture groups. -/
def amountChar (c : Char) : Bool :=
  c.isDigit || c = '.' || c = ','

/-- Strip an exact literal prefix, or fail. -/
def dropPre : List Char → List Char → Option (List Char)
  | [], l => some l
  | _ :: _, [] => none
  | p :: ps, c :: cs => if c = p then dropPre ps cs else none

/-- After a literal label: `skip*Rp\s?([\d.,]+)` where `skip` is `\s`
(Shopee and first Aladin pattern) or `[:\s]` (second Aladin pattern).
The greedy `skip*` consumes the maximal run (no backtracking can help
since `R` is in neither class); `\s?` consumes one whitespace character
exactly when one is present (otherwise the following `[\d.,]+` could not
start); the capture is the maximal non-empty run of `[\d.,]`. -/
def amountAfterLabel (skip : Char → Bool) (l : List Char) : Option (List Char) :=
  match dropPre ['R', 'p'] (l.dropWhile skip) with
  | some l2 =>
    let l3 := match l2 with
      | c :: rest => if pyWs c then rest else l2
      | [] => []
    let cap := l3.takeWhile amountChar
    if cap.isEmpty then none else some cap
  | none => none

/-- Try `label ++ skip*Rp\s?([\d.,]+)` at one start position. -/
def amountMatchAt (skip : Char → Bool) (label : List Char) (l : List Char) :
    Option (List Char) :=
  match dropPre label l with
  | some rest => amountAfterLabel skip rest
  | none => none

/-- `re.search` for an amount pattern with the given literal label
(leftmost start position wins; a failed label occurrence falls through
to later occurrences). -/
def findAmount (skip : Char → Bool) (label : List Char) : List Char → Option (List Char)
  | [] => none
  | c :: rest =>
    match amountMatchAt skip label (c :: rest) with
    | some cap => some cap
    | none => findAmount skip label rest

/-- Character class `[A-Z0-9]` of the order-number capture. -/
def orderChar (c : Char) : Bool :=
  ('A' ≤ c && c ≤ 'Z') || c.isDigit

/-- Try `Pesanan\s(#[A-Z0-9]+)` at one start position. -/
def orderMatchAt (l : List Char) : Option (List Char) :=
  match dropPre "Pesanan".data l with
  | some (c :: '#' :: rest2) =>
    if pyWs c then
      let cap := rest2.takeWhile orderChar
      if cap.isEmpty then none else some ('#' :: cap)
    else none
  | _ => none

/-- `re.search(r'Pesanan\s(#[A-Z0-9]+)', subject)`. -/
def findOrder : List Char → Option (List Char)
  | [] => none
  | c :: rest =>
    match orderMatchAt (c :: rest) with
    | some cap => some cap
    | none => findOrder rest

/-! ## Title cleanup and truncation -/

/-- Scan for the first `>` in `re.sub(r'<[^>]*>', '', title)`; returns
the suffix after it, `none` when the tag never closes. -/
def dropTag : List Char → Option (List Char)
  | [] => none
  | c :: rest => if c = '>' then some rest else dropTag rest

/-- Worker for `stripTags`, structurally recursive on a fuel argument;
every step consumes at least one character, so `l.length` fuel always
suffices and the fuel-exhausted clause is unreachable. -/
def stripTagsF : Nat → List Char → List Char
  | 0, l => l
  | _ + 1, [] => []
  | f + 1, c :: rest =>
    if c = '<' then
      match dropTag rest with
      | some rest' => stripTagsF f rest'
      | none => c :: stripTagsF f rest
    else c :: stripTagsF f rest

/-- `re.sub(r'<[^>]*>', '', title)`: remove each `<`…first `>` block; a
`<` without a closing `>` is kept. -/
def stripTags (l : List Char) : List Char :=
  stripTagsF l.length l

/-- Does a url-body (`[^\s]+`) start here? -/
def urlBodyStarts : List Char → Bool
  | [] => false
  | c :: _ => !pyWs c

/-- Worker for `stripUrls`, fuelled like `stripTagsF`. -/
def stripUrlsF : Nat → List Char → List Char
  | 0, l => l
  | _ + 1, [] => []
  | f + 1, c :: rest =>
    if "https://".data.isPrefixOf (c :: rest) && urlBodyStarts (rest.drop 7) then
      stripUrlsF f ((rest.drop 7).dropWhile (fun x => !pyWs x))
    else if "http://".data.isPrefixOf (c :: rest) && urlBodyStarts (rest.drop 6) then
      stripUrlsF f ((rest.drop 6).dropWhile (fun x => !pyWs x))
    else
      c :: stripUrlsF f rest

/-- `re.sub(r'https?://[^\s]+', '', title)`: at each position, if
`https://` (the greedy `s?` first) or `http://` is present and followed
by at least one non-whitespace character, drop the scheme and the maximal
non-whitespace run; otherwise keep the character and move on. -/
def stripUrls (l : List Char) : List Char :=
  stripUrlsF l.length l

/-! ## Title truncation (`extract_shopee_delivery`, lines 392-400) -/

/-- The word-accumulation loop:

    truncated = ''
    for word in words:
        if len(truncated + ' ' + word) <= 40:
            truncated += (' ' if truncated else '') + word
        else:
            break
-/
def truncGo : List (List Char) → List Char → List Char
  | [], acc => acc
  | w :: ws, acc =>
    if (acc ++ ' ' :: w).length ≤ 40 then
      truncGo ws (if acc.isEmpty then w else acc ++ ' ' :: w)
    else acc

/-- `if len(title) > 40: ... title = truncated or title[:37] + '...'`
applied to the whitespace-collapsed title. -/
def shopeeTruncate (t : List Char) : List Char :=
  if 40 < t.length then
    if (truncGo (pySplit t) []).isEmpty then t.take 37 ++ "...".data
    else truncGo (pySplit t) []
  else t

/-- Full cleanup of a captured title: `strip()`, tag removal, URL
removal, whitespace collapse (`' '.join(title.split())`), truncation. -/
def processTitle (cap : List Char) : List Char :=
  shopeeTruncate (joinWordsC (pySplit (stripUrls (stripTags (pyStripL cap)))))

/-! ## Transaction records and the merchant extractors -/

/-- The dict built by the extractors; keys that a given extractor may
leave unset are `Option`-valued, keys always set before the final
completeness guard are plain. -/
structure TxRecord where
  merchant_type : String
  is_income : Bool
  account : String
  hashtag : String
  title : Option String := none
  amount : Option Nat := none
  category : Option String := none
  subcategory : Option String := none
  date : String := ""
  time : String := ""
  order_number : Option String := none
deriving Repr, DecidableEq

/-- `extract_shopee_delivery(body, subject, date, time)`.  A
`ValueError` from `int()` is caught by the surrounding `try/except`
(returning `None`), which coincides with the amount being absent at the
final completeness guard; both are `none` here. -/
def extract_shopee_delivery (body subject date time : String) : Option TxRecord :=
  let title? := (findShopeeTitle body.data).map (fun cap => String.mk (processTitle cap))
  let amount? := (findAmount pyWs "Total Pembayaran:".data body.data).bind parse_amount
  let order? := (findOrder subject.data).map String.mk
  match title?, amount? with
  | some t, some a =>
    if t = "" || a = 0 then none
    else
      some { merchant_type := "shopee", is_income := false, account := "SeaBank",
             category := some "Shopee", hashtag := "#email", title := some t,
             amount := some a, date := date, time := time, order_number := order? }
  | _, _ => none

/-- The `for pattern in amount_patterns` loop of
`extract_aladin_deposito`: two label variants tried in order
(`Total Bagi Hasil\s*Rp\s?([\d.,]+)`, then
`Bagi Hasil[:\s]*Rp\s?([\d.,]+)`), first match wins. -/
def aladin_amount_capture (body : List Char) : Option (List Char) :=
  match findAmount pyWs "Total Bagi Hasil".data body with
  | some cap => some cap
  | none => findAmount (fun c => c = ':' || pyWs c) "Bagi Hasil".data body

/-- The fixed Aladin income record around the extracted amount. -/
def aladinRecord (a : Nat) (date time : String) : TxRecord :=
  { merchant_type := "aladin", is_income := true,
    account := "Ala Dompet (Aladin)", title := some "Bagi Hasil Deposito",
    category := some "Return", subcategory := some "Deposito",
    hashtag := "#email", amount := some a, date := date, time := time }

/-- `extract_aladin_deposito(body, subject, date, time)`: convert the
first matching capture, guard on a truthy amount, emit the fixed
income record. -/
def extract_aladin_deposito (body _subject date time : String) : Option TxRecord :=
  match (aladin_amount_capture body.data).bind parse_amount with
  | some a => if a = 0 then none else some (aladinRecord a date time)
  | none => none

/-- `extract_tokopedia_order` (registered placeholder, always no match). -/
def extract_tokopedia_order (_body _subject _date _time : String) : Option TxRecord :=
  none

/-- `extract_gojek_transaction` (registered placeholder, always no match). -/
def extract_gojek_transaction (_body _subject _date _time : String) : Option TxRecord :=
  none

/-- The email fields as unpacked by the dispatcher (`email_data.get(k, '')`). -/
structure EmailData where
  sender : String := ""
  subject : String := ""
  body : String := ""
  date : String := ""
  time : String := ""

/-- `extract_transaction_from_email(email_data)`: dispatch by
case-insensitive sender substring, with subject guards for the two
implemented merchants. -/
def extract_transaction_from_email (e : EmailData) : Option TxRecord :=
  if hasSub "shopee".data (pyLower e.sender.data) then
    (if hasSub "telah dikirim".data (pyLower e.subject.data) then
      extract_shopee_delivery e.body e.subject e.date e.time
    else none)
  else if hasSub "aladin".data (pyLower e.sender.data) then
    (if hasSub "deposito".data (pyLower e.subject.data) &&
        hasSub "diperpanjang".data (pyLower e.subject.data) then
      extract_aladin_deposito e.body e.subject e.date e.time
    else none)
  else if hasSub "tokopedia".data (pyLower e.sender.data) then
    extract_tokopedia_order e.body e.subject e.date e.time
  else if hasSub "gojek".data (pyLower e.sender.data) then
    extract_gojek_transaction e.body e.subject e.date e.time
  else none

/-! ## Dates and formatting helpers -/

/-- Calendar days per month (as validated by `datetime`). -/
def daysInMonth (y m : Nat) : Nat :=
  if m = 2 then (if y % 4 = 0 && (y % 100 ≠ 0 || y % 400 = 0) then 29 else 28)
  else if m = 4 || m = 6 || m = 9 || m = 11 then 30 else 31

/-- Worker for `splitOnChar`. -/
def splitOnCharAux : List Char → Char → List Char → List (List Char)
  | [], _, acc => [acc.reverse]
  | x :: rest, c, acc =>
    if x = c then acc.reverse :: splitOnCharAux rest c []
    else splitOnCharAux rest c (x :: acc)

/-- `str.split(sep)` for a one-character separator (empties kept). -/
def splitOnChar (c : Char) (l : List Char) : List (List Char) :=
  splitOnCharAux l c []

/-- A run of decimal digits with a length between `lo` and `hi`. -/
def parseNatLen (s : List Char) (lo hi : Nat) : Option Nat :=
  if lo ≤ s.length && s.length ≤ hi && !s.isEmpty && s.all Char.isDigit then
    some (natOfDigits s)
  else none

/-- A parsed `%d/%m/%Y %H:%M:%S` timestamp. -/
structure DateTime6 where
  y : Nat
  mo : Nat
  d : Nat
  h : Nat
  mi : Nat
  s : Nat
deriving Repr, DecidableEq

/-- `datetime.strptime(s, "%d/%m/%Y %H:%M:%S")`: day and month take one
or two digits, the year exactly four, time fields one or two digits, with
`datetime`'s range validation (day against the month's length). -/
def strptime_dmY (str : String) : Option DateTime6 :=
  match splitOnChar ' ' str.data with
  | [dpart, tpart] =>
    (match splitOnChar '/' dpart, splitOnChar ':' tpart with
     | [ds, ms, ys], [hs, mins, ss] =>
       match parseNatLen ds 1 2, parseNatLen ms 1 2, parseNatLen ys 4 4,
           parseNatLen hs 1 2, parseNatLen mins 1 2, parseNatLen ss 1 2 with
       | some d, some m, some y, some hh, some mi, some s =>
         if 1 ≤ d && 1 ≤ m && m ≤ 12 && d ≤ daysInMonth y m &&
             hh ≤ 23 && mi ≤ 59 && s ≤ 59 then
           some ⟨y, m, d, hh, mi, s⟩
         else none
       | _, _, _, _, _, _ => none
     | _, _ => none)
  | _ => none

/-- Two-digit zero-padded field. -/
def pad2 (n : Nat) : String :=
  if n < 10 then "0" ++ toString n else toString n

/-- Four-digit zero-padded field. -/
def pad4 (n : Nat) : String :=
  if n < 10 then "000" ++ toString n
  else if n < 100 then "00" ++ toString n
  else if n < 1000 then "0" ++ toString n
  else toString n

/-- `date_obj.strftime("%Y-%m-%d %H:%M:%S")`. -/
def strftime_Ymd (dt : DateTime6) : String :=
  pad4 dt.y ++ "-" ++ pad2 dt.mo ++ "-" ++ pad2 dt.d ++ " " ++
    pad2 dt.h ++ ":" ++ pad2 dt.mi ++ ":" ++ pad2 dt.s

/-- Thousands grouping of a reversed digit list (CPython `format(x, ',')`
groups from the right in blocks of three). -/
def groupRev : List Char → Nat → List Char
  | [], _ => []
  | c :: rest, k =>
    if k = 3 then '.' :: c :: groupRev rest 1 else c :: groupRev rest (k + 1)

/-- `format_rupiah(amount)` for a non-negative integer amount:
`f"Rp {amount:,.0f}".replace(",", ".")`. -/
def format_rupiah (n : Nat) : String :=
  "Rp " ++ String.mk ((groupRev (toString n).data.reverse 0).reverse)

/-! ## `generate_cashew_link` (lines 199-213) -/

/-- Uppercase hex digit. -/
def hexDigitU (n : Nat) : Char :=
  if n < 10 then Char.ofNat (48 + n) else Char.ofNat (55 + n)

/-- UTF-8 bytes of one code point. -/
def utf8Char (n : Nat) : List Nat :=
  if n < 128 then [n]
  else if n < 2048 then [192 + n / 64, 128 + n % 64]
  else if n < 65536 then [224 + n / 4096, 128 + n / 64 % 64, 128 + n % 64]
  else [240 + n / 262144, 128 + n / 4096 % 64, 128 + n / 64 % 64, 128 + n % 64]

/-- `%XX` escape of one byte. -/
def pctByte (b : Nat) : List Char :=
  ['%', hexDigitU (b / 16), hexDigitU (b % 16)]

/-- `urllib.parse.quote_plus`: ASCII letters, digits and `_.-~` kept,
space becomes `+`, everything else percent-encoded bytewise. -/
def quote_plus (s : String) : String :=
  String.mk (s.data.foldr
    (fun c acc =>
      (if c.isAlphanum || c = '_' || c = '.' || c = '-' || c = '~' then [c]
       else if c = ' ' then ['+']
       else (utf8Char c.toNat).foldr (fun b a => pctByte b ++ a) []) ++ acc)
    [])

/-- `urllib.parse.urlencode` over an insertion-ordered dict. -/
def urlencode (ps : List (String × String)) : String :=
  String.intercalate "&" (ps.map fun p => quote_plus p.1 ++ "=" ++ quote_plus p.2)

/-- First value stored under a key (the call sites build dicts with
distinct keys, so this is exactly the dict lookup). -/
def lookupKey (td : List (String × String)) (k : String) : Option String :=
  (td.find? (fun p => p.1 == k)).map (·.2)

/-- The date value serialized into the link: reformatted when it parses
as `%d/%m/%Y %H:%M:%S`, kept verbatim otherwise. -/
def cashewDate (d : String) : String :=
  match strptime_dmY d with
  | some dt => strftime_Ymd dt
  | none => d

/-- The query parameters of `generate_cashew_link(transaction_data)`:
the non-empty values among the six allowed keys in insertion order,
then the (reformatted) non-empty date. -/
def cashew_params (td : List (String × String)) : List (String × String) :=
  let allowed := ["amount", "title", "category", "subcategory", "account", "notes"]
  let params := td.filter (fun p => allowed.contains p.1 && p.2 ≠ "")
  match lookupKey td "date" with
  | some d => if d ≠ "" then params ++ [("date", cashewDate d)] else params
  | none => params

/-- `generate_cashew_link(transaction_data)`. -/
def generate_cashew_link (td : List (String × String)) : String :=
  "https://cashewapp.web.app/addTransaction?" ++ urlencode (cashew_params td)

/-! ## Per-user session store and the confirmation handlers -/

/-- The pending transaction dict produced by the user's backend
(`parse_text`), with the keys the handlers read. -/
structure Transaction where
  title : String := ""
  amount : Nat := 0
  is_income : Bool := false
  account : String := ""
  category : String := ""
  subcategory : String := ""
deriving Repr, DecidableEq

/-- One `user_context[user_id]` entry. -/
structure Context where
  pending_transaction : Transaction
  original_text : String := ""
deriving Repr, DecidableEq

/-- The `user_context` dict: at most one entry per user id. -/
def Store := String → Option Context

/-- `user_context[user_id] = ctx`. -/
def setUser (st : Store) (u : String) (c : Context) : Store :=
  fun v => if v = u then some c else st v

/-- `user_context.pop(user_id, None)`. -/
def popUser (st : Store) (u : String) : Store :=
  fun v => if v = u then none else st v

/-- The spec's per-user confirmation states as observable in the code:
a user is awaiting confirmation exactly when a session entry exists. -/
inductive BotState where
  | idle
  | awaitingConfirmation
deriving Repr, DecidableEq

/-- Project the session store onto the spec's state machine. -/
def stateOf (st : Store) (u : String) : BotState :=
  if (st u).isSome then .awaitingConfirmation else .idle

/-- Worker for `pyReplace` (fuel is the input length; a non-empty
pattern consumes at least one character per step). -/
def pyReplaceF : Nat → List Char → List Char → List Char → List Char
  | 0, l, _, _ => l
  | _ + 1, [], _, _ => []
  | f + 1, c :: rest, pat, rep =>
    match dropPre pat (c :: rest) with
    | some rest' => rep ++ pyReplaceF f rest' pat rep
    | none => c :: pyReplaceF f rest pat rep

/-- Python `str.replace(pat, rep)`: replace every non-overlapping
occurrence, left to right (an empty pattern interleaves `rep`
everywhere, as CPython does). -/
def pyReplace (l pat rep : List Char) : List Char :=
  if pat.isEmpty then rep ++ l.foldr (fun c acc => c :: (rep ++ acc)) []
  else pyReplaceF l.length l pat rep

/-- Messages surfaced to the user by a handler. -/
inductive Reply where
  | ack (text : String)
  | message (text : String)
  | confirmView (t : Transaction)
  | saved (text : String) (cashewLink : String)
  | cancelled
deriving Repr, DecidableEq

/-- Result of one handler invocation: the new store, the backend actions
invoked through `call_user_gas`, and the replies sent. -/
structure Outcome where
  store : Store
  calls : List String := []
  replies : List Reply := []

/-- A decoded `call_user_gas` JSON response for `save_transaction`. -/
structure GasResult where
  success : Bool := false
deriving Repr, DecidableEq

/-- The `transaction_data` dict built inside `handle_confirm_transaction`
(lines 1075-1083); `now` is the formatted Jakarta timestamp. -/
def confirm_transaction_data (t : Transaction) (now : String) : List (String × String) :=
  [("amount", toString t.amount), ("title", t.title), ("account", t.account),
   ("category", t.category), ("subcategory", t.subcategory), ("date", now),
   ("income", if t.is_income then "TRUE" else "FALSE")]

/-- `handle_confirm_transaction(call, user_id)`: `saveResult` is the
response of the `save_transaction` backend call (`none` models both a
transport error and a non-200 status, which `call_user_gas` folds into
`None`). -/
def handle_confirm_transaction (store : Store) (user : String)
    (saveResult : Option GasResult) (now : String) : Outcome :=
  match store user with
  | none => { store := store, calls := [], replies := [.ack "❌ No pending transaction"] }
  | some ctx =>
    let t := ctx.pending_transaction
    match saveResult with
    | some r =>
      if r.success then
        { store := popUser store user,
          calls := ["save_transaction"],
          replies := [.saved ("✅ *Transaction Saved!*\n\n*" ++ t.title ++ "* - " ++
              format_rupiah t.amount)
            (generate_cashew_link (confirm_transaction_data t now))] }
      else
        { store := store, calls := ["save_transaction"],
          replies := [.ack "❌ Failed to save transaction"] }
    | none =>
      { store := store, calls := ["save_transaction"],
        replies := [.ack "❌ Failed to save transaction"] }

/-- `handle_cancel_transaction(call, user_id)`. -/
def handle_cancel_transaction (store : Store) (user : String) : Outcome :=
  { store := popUser store user, calls := [], replies := [.cancelled] }

/-- `handle_select_category(call, user_id, data)`. -/
def handle_select_category (store : Store) (user : String) (data : String) : Outcome :=
  let category := String.mk (pyReplace data.data "select_cat:".data [])
  match store user with
  | some ctx =>
    let t' := { ctx.pending_transaction with category := category }
    { store := setUser store user { ctx with pending_transaction := t' },
      calls := [],
      replies := [.confirmView t', .ack ("Category: " ++ category)] }
  | none =>
    { store := store, calls := [], replies := [.ack ("Category: " ++ category)] }

/-- `handle_select_account(call, user_id, data)`. -/
def handle_select_account (store : Store) (user : String) (data : String) : Outcome :=
  let account := String.mk (pyReplace data.data "select_acc:".data [])
  match store user with
  | some ctx =>
    let t' := { ctx.pending_transaction with account := account }
    { store := setUser store user { ctx with pending_transaction := t' },
      calls := [],
      replies := [.confirmView t', .ack ("Account: " ++ account)] }
  | none =>
    { store := store, calls := [], replies := [.ack ("Account: " ++ account)] }

/-- A decoded `parse_text` backend response. -/
structure ParseResult where
  success : Bool := false
  transaction : Option Transaction := none
  error : Option String := none
deriving Repr, DecidableEq

/-- `handle_text(message)`: `authorized` is the admin-spreadsheet
authorization check, `webhook` the user's registered backend URL, and
`result` the `parse_text` response (absent on transport error). -/
def handle_text (store : Store) (user : String) (text : String) (authorized : Bool)
    (webhook : Option String) (result : Option ParseResult) : Outcome :=
  if "/".data.isPrefixOf text.data then { store := store }
  else if !authorized then
    { store := store, replies := [.message "❌ Unauthorized. Contact admin for access."] }
  else
    let stripped := String.mk (pyStripL text.data)
    match webhook with
    | none =>
      { store := store,
        replies := [.message "⚠️ *Setup Required*\n\nYou haven't configured your Google Apps Script yet.\nRun /setup for instructions."] }
    | some _ =>
      match result with
      | some r =>
        if r.success then
          match r.transaction with
          | some t =>
            { store := setUser store user
                { pending_transaction := t, original_text := stripped },
              calls := ["parse_text"],
              replies := [.confirmView t] }
          | none =>
            { store := store, calls := ["parse_text"],
              replies := [.message "❌ Could not parse transaction. Please try again."] }
        else
          { store := store, calls := ["parse_text"],
            replies := [.message ("❌ Error: " ++ (r.error.getD "Unknown error"))] }
      | none =>
        { store := store, calls := ["parse_text"],
          replies := [.message "❌ Error: No response from your GAS"] }

/-! ## HMAC-SHA256 and `verify_webhook_signature`

`hashlib.sha256` / `hmac.new(..., hashlib.sha256)` are embedded as the
FIPS 180-4 / RFC 2104 functions over byte lists; `hmac.compare_digest`
on two hex strings is (timing aside) string equality. -/

/-- 2^32. -/
def M32 : Nat := 4294967296

/-- 32-bit right rotation. -/
def rotr (n x : Nat) : Nat :=
  ((x >>> n) ||| (x <<< (32 - n))) % M32

/-- SHA-256 Σ0. -/
def bsig0 (x : Nat) : Nat := rotr 2 x ^^^ rotr 13 x ^^^ rotr 22 x

/-- SHA-256 Σ1. -/
def bsig1 (x : Nat) : Nat := rotr 6 x ^^^ rotr 11 x ^^^ rotr 25 x

/-- SHA-256 σ0. -/
def ssig0 (x : Nat) : Nat := rotr 7 x ^^^ rotr 18 x ^^^ (x >>> 3)

/-- SHA-256 σ1. -/
def ssig1 (x : Nat) : Nat := rotr 17 x ^^^ rotr 19 x ^^^ (x >>> 10)

/-- SHA-256 Ch. -/
def shaCh (x y z : Nat) : Nat := (x &&& y) ^^^ ((x ^^^ 4294967295) &&& z)

/-- SHA-256 Maj. -/
def shaMaj (x y z : Nat) : Nat := (x &&& y) ^^^ (x &&& z) ^^^ (y &&& z)

/-- SHA-256 round constants (FIPS 180-4, written in decimal). -/
def K256 : List Nat :=
  [1116352408, 1899447441, 3049323471, 3921009573, 961987163,
   1508970993, 2453635748, 2870763221, 3624381080, 310598401,
   607225278, 1426881987, 1925078388, 2162078206, 2614888103,
   3248222580, 3835390401, 4022224774, 264347078, 604807628,
   770255983, 1249150122, 1555081692, 1996064986, 2554220882,
   2821834349, 2952996808, 3210313671, 3336571891, 3584528711,
   113926993, 338241895, 666307205, 773529912, 1294757372,
   1396182291, 1695183700, 1986661051, 2177026350, 2456956037,
   2730485921, 2820302411, 3259730800, 3345764771, 3516065817,
   3600352804, 4094571909, 275423344, 430227734, 506948616,
   659060556, 883997877, 958139571, 1322822218, 1537002063,
   1747873779, 1955562222, 2024104815, 2227730452, 2361852424,
   2428436474, 2756734187, 3204031479, 3329325298]

/-- SHA-256 working state. -/
structure H8 where
  a : Nat
  b : Nat
  c : Nat
  d : Nat
  e : Nat
  f : Nat
  g : Nat
  h : Nat
deriving Repr, DecidableEq

/-- SHA-256 initial hash value (FIPS 180-4, written in decimal). -/
def H256 : H8 :=
  ⟨1779033703, 3144134277, 1013904242, 2773480762,
   1359893119, 2600822924, 528734635, 1541459225⟩

/-- One compression round. -/
def shaStep (s : H8) (kw : Nat × Nat) : H8 :=
  let t1 := (s.h + bsig1 s.e + shaCh s.e s.f s.g + kw.1 + kw.2) % M32
  let t2 := (bsig0 s.a + shaMaj s.a s.b s.c) % M32
  ⟨(t1 + t2) % M32, s.a, s.b, s.c, (s.d + t1) % M32, s.e, s.f, s.g⟩

/-- Extend a 16-word block to the 64-word message schedule
(`n` remaining words to append). -/
def schedExt : Nat → List Nat → List Nat
  | 0, ws => ws
  | n + 1, ws =>
    let i := ws.length
    schedExt n (ws ++ [(ssig1 (ws.getD (i - 2) 0) + ws.getD (i - 7) 0 +
      ssig0 (ws.getD (i - 15) 0) + ws.getD (i - 16) 0) % M32])

/-- Compress one 16-word block into the chaining state. -/
def compress (H : H8) (block : List Nat) : H8 :=
  let s := (K256.zip (schedExt 48 block)).foldl shaStep H
  ⟨(H.a + s.a) % M32, (H.b + s.b) % M32, (H.c + s.c) % M32, (H.d + s.d) % M32,
   (H.e + s.e) % M32, (H.f + s.f) % M32, (H.g + s.g) % M32, (H.h + s.h) % M32⟩

/-- Big-endian bytes of a value, `n` bytes wide. -/
def toBytesBE : Nat → Nat → List Nat
  | 0, _ => []
  | n + 1, v => toBytesBE n (v / 256) ++ [v % 256]

/-- Big-endian 32-bit words of a byte list. -/
def toWords : List Nat → List Nat
  | b0 :: b1 :: b2 :: b3 :: rest =>
    (((b0 * 256 + b1) * 256 + b2) * 256 + b3) :: toWords rest
  | _ => []

/-- SHA-256 padding: `0x80`, zeros to 56 mod 64, 64-bit bit length. -/
def padMsg (msg : List Nat) : List Nat :=
  msg ++ 128 :: List.replicate ((119 - msg.length % 64) % 64) 0 ++
    toBytesBE 8 (8 * msg.length)

/-- Split a word list into 16-word blocks (a trailing partial block is
dropped; padded input is always a whole number of blocks). -/
def chunk16 : List Nat → List (List Nat)
  | w0 :: w1 :: w2 :: w3 :: w4 :: w5 :: w6 :: w7 ::
      w8 :: w9 :: w10 :: w11 :: w12 :: w13 :: w14 :: w15 :: rest =>
    [w0, w1, w2, w3, w4, w5, w6, w7, w8, w9, w10, w11, w12, w13, w14, w15] ::
      chunk16 rest
  | _ => []

/-- SHA-256 of a byte list, as 32 bytes. -/
def sha256 (msg : List Nat) : List Nat :=
  let s := (chunk16 (toWords (padMsg msg))).foldl compress H256
  toBytesBE 4 s.a ++ toBytesBE 4 s.b ++ toBytesBE 4 s.c ++ toBytesBE 4 s.d ++
    toBytesBE 4 s.e ++ toBytesBE 4 s.f ++ toBytesBE 4 s.g ++ toBytesBE 4 s.h

/-- Lowercase hex digit. -/
def hexDigitL (n : Nat) : Char :=
  if n < 10 then Char.ofNat (48 + n) else Char.ofNat (87 + n)

/-- `bytes.hex()` / `.hexdigest()`. -/
def hexdigest (bytes : List Nat) : String :=
  String.mk (bytes.foldr (fun b acc => hexDigitL (b / 16) :: hexDigitL (b % 16) :: acc) [])

/-- `str.encode()` (UTF-8). -/
def strBytes (s : String) : List Nat :=
  s.data.foldr (fun c acc => utf8Char c.toNat ++ acc) []

/-- `hmac.new(key, msg, hashlib.sha256).hexdigest()`. -/
def hmac_sha256_hex (key msg : String) : String :=
  let kb := strBytes key
  let k0 := if 64 < kb.length then sha256 kb else kb
  let kp := k0 ++ List.replicate (64 - k0.length) 0
  hexdigest (sha256 ((kp.map (fun b => b ^^^ 92)) ++
    sha256 ((kp.map (fun b => b ^^^ 54)) ++ strBytes msg)))

/-- `verify_webhook_signature(payload, signature)`; the configured
`WEBHOOK_SECRET` is an explicit parameter. -/
def verify_webhook_signature (secret payload signature : String) : Bool :=
  hmac_sha256_hex secret payload == signature

/-! ## JSON values and `receive_transaction` (lines 220-256) -/

mutual

/-- JSON values as handed to the webhook endpoint. -/
inductive Json where
  | null
  | bool (b : Bool)
  | num (n : Int)
  | str (s : String)
  | arr (xs : JsonArr)
  | obj (kvs : JsonObj)
deriving Repr

/-- A JSON array's elements. -/
inductive JsonArr where
  | nil
  | cons (hd : Json) (tl : JsonArr)
deriving Repr

/-- A JSON object's (insertion-ordered) key/value pairs. -/
inductive JsonObj where
  | nil
  | cons (k : String) (v : Json) (tl : JsonObj)
deriving Repr

end

/-- `\uXXXX` escape (with a surrogate pair above the BMP). -/
def uEscape (n : Nat) : List Char :=
  let hex4 := fun m => ['\\', 'u', hexDigitL (m / 4096 % 16), hexDigitL (m / 256 % 16),
    hexDigitL (m / 16 % 16), hexDigitL (m % 16)]
  if n < 65536 then hex4 n
  else hex4 (55296 + (n - 65536) / 1024) ++ hex4 (56320 + (n - 65536) % 1024)

/-- `json.dumps` escaping of one character (`ensure_ascii=True`). -/
def jsonEscapeChar (c : Char) : List Char :=
  if c = '"' then ['\\', '"']
  else if c = '\\' then ['\\', '\\']
  else if c = '\n' then ['\\', 'n']
  else if c = '\t' then ['\\', 't']
  else if c = '\r' then ['\\', 'r']
  else if c.toNat = 8 then ['\\', 'b']
  else if c.toNat = 12 then ['\\', 'f']
  else if c.toNat < 32 || 126 < c.toNat then uEscape c.toNat
  else [c]

/-- `json.dumps` of a string, quotes included. -/
def jsonEscape (s : String) : String :=
  "\"" ++ String.mk (s.data.foldr (fun c a => jsonEscapeChar c ++ a) []) ++ "\""

mutual

/-- `json.dumps(value)` with CPython's default separators and
`ensure_ascii`; in particular `json.dumps(None) == "null"`. -/
def jsonDumps : Json → String
  | .null => "null"
  | .bool true => "true"
  | .bool false => "false"
  | .num n => toString n
  | .str s => jsonEscape s
  | .arr xs => "[" ++ jsonDumpsArr xs ++ "]"
  | .obj kvs => "\x7b" ++ jsonDumpsObj kvs ++ "\x7d"

/-- Array elements joined by `", "`. -/
def jsonDumpsArr : JsonArr → String
  | .nil => ""
  | .cons x .nil => jsonDumps x
  | .cons x (.cons y tl) => jsonDumps x ++ ", " ++ jsonDumpsArr (.cons y tl)

/-- Object entries `"key": value` joined by `", "`. -/
def jsonDumpsObj : JsonObj → String
  | .nil => ""
  | .cons k v .nil => jsonEscape k ++ ": " ++ jsonDumps v
  | .cons k v (.cons k2 v2 tl) =>
    jsonEscape k ++ ": " ++ jsonDumps v ++ ", " ++ jsonDumpsObj (.cons k2 v2 tl)

end

/-- Python truthiness of a decoded JSON value. -/
def pyTruthy : Json → Bool
  | .null => false
  | .bool b => b
  | .num n => n ≠ 0
  | .str s => s ≠ ""
  | .arr .nil => false
  | .arr (.cons _ _) => true
  | .obj .nil => false
  | .obj (.cons _ _ _) => true

/-- Python `str()` of a decoded JSON value (`str(None) == "None"`; the
container cases are approximated by their JSON form and are not exercised
by the claims). -/
def pyStr : Json → String
  | .null => "None"
  | .bool true => "True"
  | .bool false => "False"
  | .num n => toString n
  | .str s => s
  | j => jsonDumps j

/-- Outcome of the `/webhook/transaction` endpoint. -/
structure TxResult where
  status : Nat
  error : Option String
  notified : Bool
deriving Repr, DecidableEq

/-- `receive_transaction()`: `uid` is `data.get('user_id')` (absent
modelled as JSON null, exactly what `dict.get` returns), `signature` is
`data.get('signature', '')`, `transaction` is `data.get('transaction')`
(absent likewise null), and `authorized` is the admin-spreadsheet check.
`notified` records whether `send_email_transaction_to_user` is reached. -/
def receive_transaction (secret : String) (authorized : String → Bool)
    (uid : Json) (signature : Option String) (transaction : Json) : TxResult :=
  let user_id := pyStr uid
  let sig := signature.getD ""
  let payload := jsonDumps transaction
  if !(verify_webhook_signature secret payload sig) then
    { status := 403, error := some "Invalid signature", notified := false }
  else if user_id = "" || !(pyTruthy transaction) then
    { status := 400, error := some "Missing user_id or transaction", notified := false }
  else if !(authorized user_id) then
    { status := 403, error := some "Unauthorized", notified := false }
  else
    { status := 200, error := none, notified := true }

/-- The `transaction_data` dict built by the email-notification path
(`send_email_transaction_to_user`, lines 537-545), which — unlike the
confirmation path — sign-encodes the amount
(`str(-amount) if not is_income else str(amount)`). -/
def email_transaction_data (is_income : Bool) (amount : Nat)
    (title account category subcategory datetime_str : String) :
    List (String × String) :=
  [("amount", if is_income then toString amount else toString (-(amount : Int))),
   ("title", title), ("account", account), ("category", category),
   ("subcategory", subcategory), ("date", datetime_str),
   ("income", if is_income then "TRUE" else "FALSE")]

/-! ## Concrete fixtures used by witnesses and counterexamples -/

/-- A parsed pending transaction. -/
def txKebab : Transaction :=
  { title := "Kebab", amount := 10000, is_income := false,
    account := "Cash", category := "Food", subcategory := "Lunch" }

/-- Its session entry. -/
def ctxKebab : Context :=
  { pending_transaction := txKebab, original_text := "beli kebab 10rb" }

/-- The empty session store. -/
def emptyStore : Store := fun _ => none

/-- A store where user `7` awaits confirmation of `txKebab`. -/
def store7 : Store := setUser emptyStore "7" ctxKebab

/-- A second parsed transaction, replacing `txKebab` in C9's witness. -/
def txGajian : Transaction :=
  { title := "Gajian", amount := 4000000, is_income := true, account := "Mandiri" }

/-- A successful `parse_text` response carrying `txGajian`. -/
def parseGajian : ParseResult :=
  { success := true, transaction := some txGajian }

/-! ## Claims -/

/-- C4: with a pending session, a failing backend save (no response or
non-success result, transport errors folded into "no response" by
`call_user_gas`) leaves the whole session store — hence the user's
pending session and the `AwaitingConfirmation` state — unchanged, so the
user may retry; a succeeding save removes the user's session (`Idle`). -/
theorem C4_confirm_backend (store : Store) (user : String) (ctx : Context)
    (now : String) (h : store user = some ctx) :
    (∀ saveResult : Option GasResult,
        saveResult = none ∨ (∃ r, saveResult = some r ∧ r.success = false) →
        (handle_confirm_transaction store user saveResult now).store = store ∧
        stateOf (handle_confirm_transaction store user saveResult now).store user =
          .awaitingConfirmation) ∧
    (∀ r : GasResult, r.success = true →
        (handle_confirm_transaction store user (some r) now).store user = none ∧
        stateOf (handle_confirm_transaction store user (some r) now).store user = .idle) := by
  constructor
  · intro saveResult hsr
    have hstore : (handle_confirm_transaction store user saveResult now).store = store := by
      rcases hsr with rfl | ⟨r, rfl, hr⟩
      · simp [handle_confirm_transaction, h]
      · simp [handle_confirm_transaction, h, hr]
    refine ⟨hstore, ?_⟩
    rw [hstore]
    simp [stateOf, h]
  · intro r hr
    have : (handle_confirm_transaction store user (some r) now).store user = none := by
      simp [handle_confirm_transaction, h, hr, popUser]
    exact ⟨this, by simp [stateOf, this]⟩

/-- Closed instance of C4 at a concrete store: a `none` backend response
leaves the store intact, a succeeding one clears the user's session. -/
theorem C4_confirm_backend_witness :
    (handle_confirm_transaction store7 "7" none "now").store = store7 ∧
    (handle_confirm_transaction store7 "7" (some { success := true }) "now").store "7" = none := by
  have h := C4_confirm_backend store7 "7" ctxKebab "now" (by decide)
  exact ⟨(h.1 none (Or.inl rfl)).1, (h.2 { success := true } rfl).1⟩

/-- C5 (code evidence): on a successful confirmation of the expense
`txKebab`, the deep link carries `amount=10000` — the raw positive
amount — although `is_income = false`; the claim (and the parallel
email-notification path, `email_transaction_data`) requires `-10000`.
The other serialized fields behave as claimed: empty fields are omitted
and the date is reformatted. -/
theorem C5_confirm_amount_not_sign_encoded :
    (handle_confirm_transaction store7 "7" (some { success := true })
        "05/10/2025 12:00:00").replies =
      [Reply.saved "✅ *Transaction Saved!*\n\n*Kebab* - Rp 10.000"
        "https://cashewapp.web.app/addTransaction?amount=10000&title=Kebab&account=Cash&category=Food&subcategory=Lunch&date=2025-10-05+12%3A00%3A00"] ∧
    txKebab.is_income = false ∧
    lookupKey (cashew_params (confirm_transaction_data txKebab "05/10/2025 12:00:00"))
        "amount" = some "10000" ∧
    lookupKey (cashew_params (email_transaction_data false 10000 "Kebab" "Cash" "Food"
        "Lunch" "05/10/2025 12:00:00")) "amount" = some "-10000" ∧
    ("10000" : String) ≠ "-10000" := by
  decide

/-- C7 (counterexample): with no pending session, selecting a category
performs no state change and no backend call, but its response is the
selection acknowledgment `Category: Food`, not the "nothing pending"
notice the claim requires (which the code only issues for confirm). -/
theorem C7_counterexample :
    (handle_select_category emptyStore "7" "select_cat:Food").replies =
      [Reply.ack "Category: Food"] ∧
    (handle_select_category emptyStore "7" "select_cat:Food").calls = [] ∧
    (∀ v, (handle_select_category emptyStore "7" "select_cat:Food").store v = none) ∧
    Reply.ack "Category: Food" ≠ Reply.ack "❌ No pending transaction" := by
  refine ⟨by decide, by decide, fun v => ?_, by decide⟩
  simp [handle_select_category, emptyStore]

/-- C7 (amended): for a user with no pending session, confirm responds
with the nothing-pending notice, and category/account selection respond
with the generic selection acknowledgment; all three leave the store
untouched and issue no backend call, so re-confirming an already-cleared
session is a no-op, never a duplicate save. -/
theorem C7_idle_actions (store : Store) (user : String) (h : store user = none)
    (saveResult : Option GasResult) (now dataC dataA : String) :
    stateOf store user = .idle ∧
    ((handle_confirm_transaction store user saveResult now).store = store ∧
      (handle_confirm_transaction store user saveResult now).calls = [] ∧
      (handle_confirm_transaction store user saveResult now).replies =
        [.ack "❌ No pending transaction"]) ∧
    ((handle_select_category store user dataC).store = store ∧
      (handle_select_category store user dataC).calls = [] ∧
      (handle_select_category store user dataC).replies =
        [.ack ("Category: " ++ String.mk (pyReplace dataC.data "select_cat:".data []))]) ∧
    ((handle_select_account store user dataA).store = store ∧
      (handle_select_account store user dataA).calls = [] ∧
      (handle_select_account store user dataA).replies =
        [.ack ("Account: " ++ String.mk (pyReplace dataA.data "select_acc:".data []))]) := by
  refine ⟨by simp [stateOf, h], ⟨?_, ?_, ?_⟩, ⟨?_, ?_, ?_⟩, ⟨?_, ?_, ?_⟩⟩ <;>
    simp [handle_confirm_transaction, handle_select_category, handle_select_account, h]

/-- Closed instance of C7's amended claim at the empty store. -/
theorem C7_idle_actions_witness :
    (handle_confirm_transaction emptyStore "7" (some { success := true }) "now").store =
      emptyStore ∧
    (handle_confirm_transaction emptyStore "7" (some { success := true }) "now").calls = [] := by
  have h := C7_idle_actions emptyStore "7" (by decide) (some { success := true })
    "now" "select_cat:Food" "select_acc:Cash"
  exact ⟨h.2.1.1, h.2.1.2.1⟩

/-- C8: with a pending session, selecting a category updates exactly the
`category` field of the pending transaction, and selecting an account
updates exactly the `account` field; every other transaction field, the
stored original text, the sessions of other users, and the
`AwaitingConfirmation` state are preserved, and no backend call is made. -/
theorem C8_selection_frame (store : Store) (user : String) (ctx : Context)
    (dataC dataA : String) (h : store user = some ctx) :
    ((handle_select_category store user dataC).store user =
        some { ctx with pending_transaction :=
          { ctx.pending_transaction with
              category := String.mk (pyReplace dataC.data "select_cat:".data []) } } ∧
      stateOf (handle_select_category store user dataC).store user = .awaitingConfirmation ∧
      (∀ v, v ≠ user → (handle_select_category store user dataC).store v = store v) ∧
      (handle_select_category store user dataC).calls = []) ∧
    ((handle_select_account store user dataA).store user =
        some { ctx with pending_transaction :=
          { ctx.pending_transaction with
              account := String.mk (pyReplace dataA.data "select_acc:".data []) } } ∧
      stateOf (handle_select_account store user dataA).store user = .awaitingConfirmation ∧
      (∀ v, v ≠ user → (handle_select_account store user dataA).store v = store v) ∧
      (handle_select_account store user dataA).calls = []) := by
  constructor
  · have hs : (handle_select_category store user dataC).store user =
        some { ctx with pending_transaction :=
          { ctx.pending_transaction with
              category := String.mk (pyReplace dataC.data "select_cat:".data []) } } := by
      simp [handle_select_category, h, setUser]
    refine ⟨hs, by simp [stateOf, hs], fun v hv => ?_, by simp [handle_select_category, h]⟩
    simp [handle_select_category, h, setUser, hv]
  · have hs : (handle_select_account store user dataA).store user =
        some { ctx with pending_transaction :=
          { ctx.pending_transaction with
              account := String.mk (pyReplace dataA.data "select_acc:".data []) } } := by
      simp [handle_select_account, h, setUser]
    refine ⟨hs, by simp [stateOf, hs], fun v hv => ?_, by simp [handle_select_account, h]⟩
    simp [handle_select_account, h, setUser, hv]

/-- Closed instance of C8: category selection on `store7` rewrites only
the category field. -/
theorem C8_selection_frame_witness :
    (handle_select_category store7 "7" "select_cat:Transport").store "7" =
      some { ctxKebab with pending_transaction :=
        { txKebab with category := "Transport" } } := by
  have h := C8_selection_frame store7 "7" ctxKebab "select_cat:Transport"
    "select_acc:Cash" (by decide)
  have h1 := h.1.1
  rw [show String.mk (pyReplace "select_cat:Transport".data "select_cat:".data []) =
    "Transport" from by decide] at h1
  exact h1

/-- C9: a successful free-text parse with a (truthy) transaction stores
exactly the new transaction together with the stripped message text as
the user's single session entry — whatever was there before is replaced
whole, and no other user's entry moves. -/
theorem C9_session_replace (store : Store) (user text wh : String) (t : Transaction)
    (h : "/".data.isPrefixOf text.data = false) :
    (handle_text store user text true (some wh)
        (some { success := true, transaction := some t })).store user =
      some { pending_transaction := t, original_text := String.mk (pyStripL text.data) } ∧
    (∀ v, v ≠ user →
      (handle_text store user text true (some wh)
          (some { success := true, transaction := some t })).store v = store v) ∧
    stateOf (handle_text store user text true (some wh)
        (some { success := true, transaction := some t })).store user =
      .awaitingConfirmation := by
  have hs : (handle_text store user text true (some wh)
      (some { success := true, transaction := some t })).store user =
      some { pending_transaction := t, original_text := String.mk (pyStripL text.data) } := by
    simp [handle_text, h, setUser]
  refine ⟨hs, fun v hv => ?_, by simp [stateOf, hs]⟩
  simp [handle_text, h, setUser, hv]

/-- Closed instance of C9: a second parse for user `7` discards the
pending `txKebab` session whole and stores the new transaction. -/
theorem C9_session_replace_witness :
    (handle_text store7 "7" " gajian 4jt mandiri " true (some "https://gas")
        (some parseGajian)).store "7" =
      some { pending_transaction := txGajian, original_text := "gajian 4jt mandiri" } := by
  have h := C9_session_replace store7 "7" " gajian 4jt mandiri " "https://gas"
    txGajian (by decide)
  have h1 := h.1
  rw [show String.mk (pyStripL " gajian 4jt mandiri ".data) = "gajian 4jt mandiri" from by
    decide] at h1
  exact h1

/-- C10: the transaction webhook verifies the signature over
`json.dumps(transaction)` — the string `null` when the field is absent —
before the missing-field check, which precedes the authorization check;
the user notification is reached exactly when all three checks pass. -/
theorem C10_check_order (secret : String) (authorized : String → Bool)
    (uid : Json) (signature : Option String) (tx : Json) :
    jsonDumps Json.null = "null" ∧
    (verify_webhook_signature secret (jsonDumps tx) (signature.getD "") = false →
        receive_transaction secret authorized uid signature tx =
          { status := 403, error := some "Invalid signature", notified := false }) ∧
    (verify_webhook_signature secret (jsonDumps tx) (signature.getD "") = true →
        (pyStr uid = "" ∨ pyTruthy tx = false) →
        receive_transaction secret authorized uid signature tx =
          { status := 400, error := some "Missing user_id or transaction",
            notified := false }) ∧
    (verify_webhook_signature secret (jsonDumps tx) (signature.getD "") = true →
        pyStr uid ≠ "" → pyTruthy tx = true → authorized (pyStr uid) = false →
        receive_transaction secret authorized uid signature tx =
          { status := 403, error := some "Unauthorized", notified := false }) ∧
    (verify_webhook_signature secret (jsonDumps tx) (signature.getD "") = true →
        pyStr uid ≠ "" → pyTruthy tx = true → authorized (pyStr uid) = true →
        receive_transaction secret authorized uid signature tx =
          { status := 200, error := none, notified := true }) := by
  refine ⟨rfl, ?_, ?_, ?_, ?_⟩
  · intro hv
    simp [receive_transaction, hv]
  · intro hv hmiss
    rcases hmiss with hu | ht
    · simp [receive_transaction, hv, hu]
    · simp [receive_transaction, hv, ht]
  · intro hv hu ht ha
    simp [receive_transaction, hv, hu, ht, ha]
  · intro hv hu ht ha
    simp [receive_transaction, hv, hu, ht, ha]

/-- A concrete webhook transaction value. -/
def txJson : Json :=
  .obj (.cons "title" (.str "Kebab") (.cons "amount" (.num 10000) .nil))

/-- Closed instance of C10: with the correct signature over the
serialized transaction the request is accepted and the user notified;
with a missing signature it is rejected 403 even though the remaining
checks would also have applied. -/
theorem C10_check_order_witness :
    receive_transaction "s" (fun _ => true) (.str "7")
        (some (hmac_sha256_hex "s" (jsonDumps txJson))) txJson =
      { status := 200, error := none, notified := true } ∧
    receive_transaction "s" (fun _ => true) (.str "7") none txJson =
      { status := 403, error := some "Invalid signature", notified := false } := by
  constructor
  · exact (C10_check_order "s" (fun _ => true) (.str "7")
        (some (hmac_sha256_hex "s" (jsonDumps txJson))) txJson).2.2.2.2
      (by simp [verify_webhook_signature]) (by decide) (by decide) rfl
  · exact (C10_check_order "s" (fun _ => true) (.str "7") none txJson).2.1 (by decide)

/-- Elements surviving `filter (· ≠ '.')` then `takeWhile (· ≠ ',')`
are the same whichever comes first, because the takeWhile sentinel `,`
is never removed by the filter. -/
theorem filter_takeWhile_comm (l : List Char) :
    (l.filter (· ≠ '.')).takeWhile (· ≠ ',') =
      (l.takeWhile (· ≠ ',')).filter (· ≠ '.') := by
  induction l with
  | nil => rfl
  | cons c rest ih =>
    by_cases hp : c = '.'
    · subst hp
      simpa using ih
    · by_cases hq : c = ','
      · subst hq
        simp [hp]
      · simp only [List.filter_cons, List.takeWhile_cons]
        simp [hp, hq]
        simpa using ih

/-- `int()` on an all-digit string: value when non-empty, `ValueError`
(`none`) when empty. -/
theorem pyIntChars_digits (l : List Char) (h : l.all Char.isDigit = true) :
    pyIntChars l = if l.isEmpty then none else some (natOfDigits l) := by
  cases l with
  | nil => rfl
  | cons c rest => simp [pyIntChars, h]

/-- C1: on any capture of `([\d.,]+)` (non-empty, digits and separators
only), the parsed amount is the digits before the decimal comma — all of
them when no comma — with every `.` removed, truncating the fraction;
`"60.471,23"` gives `60471`, `"2.500"` gives `2500`; and a capture with
no digits left makes the whole extraction return no record (the
`ValueError` is caught), for Shopee and Aladin alike. -/
theorem C1_amount_parsing :
    (∀ l : List Char, l ≠ [] → (∀ c ∈ l, c.isDigit ∨ c = '.' ∨ c = ',') →
        parse_amount l = claimAmount l) ∧
    parse_amount "60.471,23".data = some 60471 ∧
    parse_amount "1.234,00".data = some 1234 ∧
    parse_amount "2.500".data = some 2500 ∧
    extract_shopee_delivery "1. Item\nTotal Pembayaran: Rp .,," "s" "d" "t" = none ∧
    extract_aladin_deposito "Bagi Hasil: Rp ,." "s" "d" "t" = none := by
  refine ⟨?_, by decide, by decide, by decide, by decide, by decide⟩
  intro l _ h
  unfold parse_amount claimAmount
  by_cases hc : l.contains ','
  · rw [if_pos hc, if_pos hc, filter_takeWhile_comm]
    have hd : ((l.takeWhile (· ≠ ',')).filter (· ≠ '.')).all Char.isDigit = true := by
      rw [List.all_eq_true]
      intro c hm
      have hm' := List.mem_filter.mp hm
      have hne : ¬(c = '.') := by simpa using hm'.2
      have hl : c ∈ l.takeWhile (· ≠ ',') := hm'.1
      have hq : ¬(c = ',') := by simpa using List.mem_takeWhile_imp hl
      have : c ∈ l := (List.takeWhile_prefix _).subset hl
      rcases h c this with hdig | h' | h'
      · exact hdig
      · exact absurd h' hne
      · exact absurd h' hq
    rw [pyIntChars_digits _ hd]
  · rw [if_neg hc, if_neg hc]
    have hd : (l.filter (· ≠ '.')).all Char.isDigit = true := by
      rw [List.all_eq_true]
      intro c hm
      have hm' := List.mem_filter.mp hm
      have hne : ¬(c = '.') := by simpa using hm'.2
      have hq : ¬(c = ',') := by
        intro hq
        subst hq
        exact hc (List.elem_iff.mpr hm'.1)
      rcases h c hm'.1 with hdig | h' | h'
      · exact hdig
      · exact absurd h' hne
      · exact absurd h' hq
    rw [pyIntChars_digits _ hd]

/-- Closed instance of C1's general clause at `"1.234,00"`. -/
theorem C1_amount_parsing_witness :
    parse_amount "1.234,00".data = claimAmount "1.234,00".data :=
  C1_amount_parsing.1 "1.234,00".data (by decide) (by decide)

/-- A Shopee extraction that returns a record has a non-empty title and
a positive amount (the completeness guard at lines 424-425). -/
theorem shopee_complete (b s d t : String) (r : TxRecord)
    (h : extract_shopee_delivery b s d t = some r) :
    (∃ ti, r.title = some ti ∧ ti ≠ "") ∧ (∃ a, r.amount = some a ∧ 0 < a) := by
  unfold extract_shopee_delivery at h
  rcases hT : findShopeeTitle b.data with _ | cap <;> rw [hT] at h
  · simp at h
  · rcases hA : (findAmount pyWs "Total Pembayaran:".data b.data).bind parse_amount with
      _ | a <;> rw [hA] at h
    · simp at h
    · simp only [Option.map_some'] at h
      split at h
      · cases h
      · rename_i hguard
        cases h
        rw [Bool.or_eq_true] at hguard
        push_neg at hguard
        obtain ⟨hg1, hg2⟩ := hguard
        exact ⟨⟨_, rfl, by simpa using hg1⟩,
          ⟨a, rfl, Nat.pos_of_ne_zero (by simpa using hg2)⟩⟩

/-- An Aladin extraction that returns a record has the fixed non-empty
title and a positive amount (guard at line 471). -/
theorem aladin_complete (b s d t : String) (r : TxRecord)
    (h : extract_aladin_deposito b s d t = some r) :
    (∃ ti, r.title = some ti ∧ ti ≠ "") ∧ (∃ a, r.amount = some a ∧ 0 < a) := by
  unfold extract_aladin_deposito at h
  rcases hA : (aladin_amount_capture b.data).bind parse_amount with _ | a <;> rw [hA] at h
  · exact absurd h (by simp)
  · have h' : (if a = 0 then (none : Option TxRecord)
        else some (aladinRecord a d t)) = some r := h
    by_cases hz : a = 0
    · rw [if_pos hz] at h'
      cases h'
    · rw [if_neg hz] at h'
      cases h'
      exact ⟨⟨"Bagi Hasil Deposito", rfl, by decide⟩,
        ⟨a, rfl, Nat.pos_of_ne_zero hz⟩⟩

/-- C2: the dispatcher returns `none` or a complete record — whenever no
sender signature matches, whenever the matched signature's subject guard
fails, and whenever the matched extractor lacks a title or a positive
amount the result is `none`; any returned record has a non-empty title
and an amount strictly greater than zero. -/
theorem C2_dispatcher_complete :
    (∀ e : EmailData, ∀ r, extract_transaction_from_email e = some r →
        (∃ ti, r.title = some ti ∧ ti ≠ "") ∧ (∃ a, r.amount = some a ∧ 0 < a)) ∧
    (∀ e : EmailData,
        hasSub "shopee".data (pyLower e.sender.data) = false →
        hasSub "aladin".data (pyLower e.sender.data) = false →
        hasSub "tokopedia".data (pyLower e.sender.data) = false →
        hasSub "gojek".data (pyLower e.sender.data) = false →
        extract_transaction_from_email e = none) ∧
    (∀ e : EmailData,
        hasSub "shopee".data (pyLower e.sender.data) = true →
        hasSub "telah dikirim".data (pyLower e.subject.data) = false →
        extract_transaction_from_email e = none) ∧
    (∀ e : EmailData,
        hasSub "shopee".data (pyLower e.sender.data) = false →
        hasSub "aladin".data (pyLower e.sender.data) = true →
        (hasSub "deposito".data (pyLower e.subject.data) &&
          hasSub "diperpanjang".data (pyLower e.subject.data)) = false →
        extract_transaction_from_email e = none) := by
  refine ⟨?_, ?_, ?_, ?_⟩
  · intro e r h
    unfold extract_transaction_from_email at h
    split_ifs at h
    all_goals first
      | exact shopee_complete _ _ _ _ r h
      | exact aladin_complete _ _ _ _ r h
      | simp [extract_tokopedia_order, extract_gojek_transaction] at h
  · intro e h1 h2 h3 h4
    simp [extract_transaction_from_email, h1, h2, h3, h4]
  · intro e h1 h2
    simp [extract_transaction_from_email, h1, h2]
  · intro e h1 h2 h3
    simp [extract_transaction_from_email, h1, h2, h3]

/-- Closed instance of C2: an unregistered sender yields no record, and
a concrete Shopee delivery email yields a complete record. -/
theorem C2_dispatcher_complete_witness :
    extract_transaction_from_email
      { sender := "other@example.com", subject := "x", body := "y" } = none := by
  exact C2_dispatcher_complete.2.1 _ (by decide) (by decide) (by decide) (by decide)

set_option maxRecDepth 100000 in
/-- C6: verification accepts exactly when the claimed signature equals
the hex HMAC-SHA256 of the payload under the shared secret; recomputing
over the unmodified payload matches; any signature differing from the
expected one — in particular any mutation of a correct signature — is
rejected, as is any payload whose keyed hash differs (illustrated on
single-byte mutations of `"payload"` and of its correct signature); the
embedded verifier is a total boolean function, so no exception reaches
the caller. -/
theorem C6_signature_verification :
    (∀ secret payload sig, verify_webhook_signature secret payload sig = true ↔
        sig = hmac_sha256_hex secret payload) ∧
    (∀ secret payload,
        verify_webhook_signature secret payload (hmac_sha256_hex secret payload) = true) ∧
    (∀ secret payload sig', sig' ≠ hmac_sha256_hex secret payload →
        verify_webhook_signature secret payload sig' = false) ∧
    (∀ secret payload payload',
        hmac_sha256_hex secret payload' ≠ hmac_sha256_hex secret payload →
        verify_webhook_signature secret payload' (hmac_sha256_hex secret payload) = false) ∧
    verify_webhook_signature "secret" "payload"
      "b82fcb791acec57859b989b430a826488ce2e479fdf92326bd0a2e8375a42ba4" = true ∧
    verify_webhook_signature "secret" "qayload"
      "b82fcb791acec57859b989b430a826488ce2e479fdf92326bd0a2e8375a42ba4" = false ∧
    verify_webhook_signature "secret" "payload"
      "c82fcb791acec57859b989b430a826488ce2e479fdf92326bd0a2e8375a42ba4" = false := by
  have hiff : ∀ secret payload sig,
      verify_webhook_signature secret payload sig = true ↔
        sig = hmac_sha256_hex secret payload := by
    intro s p sig
    unfold verify_webhook_signature
    rw [beq_iff_eq]
    exact eq_comm
  have hrej : ∀ secret payload sig', sig' ≠ hmac_sha256_hex secret payload →
      verify_webhook_signature secret payload sig' = false := by
    intro s p sig' hne
    cases hb : verify_webhook_signature s p sig' with
    | false => rfl
    | true => exact absurd ((hiff s p sig').mp hb) hne
  refine ⟨hiff, fun s p => (hiff s p _).mpr rfl, hrej, ?_, by decide, by decide, by decide⟩
  intro s p p' hne
  exact hrej s p' (hmac_sha256_hex s p) fun he => hne he.symm

set_option maxRecDepth 100000 in
/-- Closed instance of C6: the recomputed signature matches, a wrong
signature is rejected. -/
theorem C6_signature_verification_witness :
    verify_webhook_signature "s" "x" (hmac_sha256_hex "s" "x") = true ∧
    verify_webhook_signature "s" "x" "" = false :=
  ⟨C6_signature_verification.2.1 "s" "x",
   C6_signature_verification.2.2.1 "s" "x" "" (by decide)⟩

/-! ## C3: word-boundary truncation -/

/-- Folding a separated word into the head of a join. -/
theorem joinWordsC_cons_append (a b : List Char) (l : List (List Char)) :
    joinWordsC ((a ++ ' ' :: b) :: l) = a ++ ' ' :: joinWordsC (b :: l) := by
  cases l with
  | nil => simp [joinWordsC]
  | cons c l' => simp [joinWordsC]

/-- A join is at least as long as its first word. -/
theorem le_length_joinWordsC (w : List Char) (l : List (List Char)) :
    w.length ≤ (joinWordsC (w :: l)).length := by
  cases l with
  | nil => simp [joinWordsC]
  | cons v ws =>
    simp only [joinWordsC, List.length_append, List.length_cons]
    omega

/-- The greedy word loop, started on a non-empty accumulator, returns
the join of the accumulator with the longest prefix of the remaining
words that keeps the join within the 40-character budget. -/
theorem truncGo_opt (ws : List (List Char)) :
    ∀ acc : List Char, acc ≠ [] →
    ∃ k, k ≤ ws.length ∧
      truncGo ws acc = joinWordsC (acc :: ws.take k) ∧
      (k ≠ 0 → (joinWordsC (acc :: ws.take k)).length ≤ 40) ∧
      (∀ j, j ≤ ws.length → (joinWordsC (acc :: ws.take j)).length ≤ 40 → j ≤ k) := by
  induction ws with
  | nil =>
    intro acc _
    exact ⟨0, Nat.le_refl _, rfl, fun hk => absurd rfl hk, fun j hj _ => hj⟩
  | cons w rest ih =>
    intro acc hacc
    have haccE : acc.isEmpty = false := by
      cases acc
      · exact absurd rfl hacc
      · rfl
    by_cases hfit : (acc ++ ' ' :: w).length ≤ 40
    · have hne : (acc ++ ' ' :: w) ≠ [] := by simp
      obtain ⟨k', hk'le, heq, hlen, hmax⟩ := ih (acc ++ ' ' :: w) hne
      have hstep : truncGo (w :: rest) acc = truncGo rest (acc ++ ' ' :: w) := by
        rw [truncGo, if_pos hfit, if_neg (show ¬acc.isEmpty = true by simp [haccE])]
      have hjoin : ∀ X, joinWordsC ((acc ++ ' ' :: w) :: X) =
          joinWordsC (acc :: w :: X) := by
        intro X
        rw [joinWordsC_cons_append]
        rfl
      refine ⟨k' + 1, by simpa using Nat.succ_le_succ hk'le, ?_, ?_, ?_⟩
      · rw [hstep, heq, List.take_succ_cons, ← hjoin]
      · intro _
        rw [List.take_succ_cons, ← hjoin]
        cases k' with
        | zero => simpa [joinWordsC] using hfit
        | succ k'' => exact hlen (by omega)
      · intro j hj hjfit
        cases j with
        | zero => omega
        | succ j' =>
          rw [List.take_succ_cons, ← hjoin] at hjfit
          exact Nat.succ_le_succ (hmax j' (by simpa using hj) hjfit)
    · refine ⟨0, Nat.zero_le _, ?_, fun hk => absurd rfl hk, ?_⟩
      · rw [truncGo, if_neg hfit, List.take_zero]
        simp [joinWordsC]
      · intro j hj hjfit
        cases j with
        | zero => exact Nat.le_refl 0
        | succ j' =>
          exfalso
          rw [List.take_succ_cons] at hjfit
          have h1 : (acc ++ ' ' :: w).length ≤
              (joinWordsC (acc :: w :: rest.take j')).length := by
            rw [show joinWordsC (acc :: w :: rest.take j') =
                joinWordsC ((acc ++ ' ' :: w) :: rest.take j') from by
              rw [joinWordsC_cons_append]; rfl]
            exact le_length_joinWordsC _ _
          omega

/-- Words produced by `str.split()` are non-empty and whitespace-free. -/
theorem pySplitAux_good (l : List Char) :
    ∀ acc : List Char, (∀ c ∈ acc, pyWs c = false) →
    ∀ w ∈ pySplitAux l acc, w ≠ [] ∧ ∀ c ∈ w, pyWs c = false := by
  induction l with
  | nil =>
    intro acc hacc w hw
    rw [pySplitAux] at hw
    split at hw
    · cases hw
    · rename_i hne
      rw [List.mem_singleton] at hw
      subst hw
      constructor
      · intro hrev
        rw [List.reverse_eq_nil_iff] at hrev
        subst hrev
        exact hne rfl
      · intro c hc
        exact hacc c (List.mem_reverse.mp hc)
  | cons c rest ih =>
    intro acc hacc w hw
    rw [pySplitAux] at hw
    split at hw
    · rename_i hws
      split at hw
      · exact ih [] (by simp) w hw
      · rename_i hne
        rcases List.mem_cons.mp hw with rfl | hw'
        · constructor
          · intro hrev
            rw [List.reverse_eq_nil_iff] at hrev
            subst hrev
            exact hne rfl
          · intro x hx
            exact hacc x (List.mem_reverse.mp hx)
        · exact ih [] (by simp) w hw'
    · rename_i hws
      refine ih (c :: acc) ?_ w hw
      intro x hx
      rcases List.mem_cons.mp hx with rfl | hx'
      · simpa using hws
      · exact hacc x hx'

/-- Scanning a whitespace-free word accumulates it. -/
theorem pySplitAux_append_word (w : List Char) :
    ∀ (l acc : List Char), (∀ c ∈ w, pyWs c = false) →
    pySplitAux (w ++ l) acc = pySplitAux l (w.reverse ++ acc) := by
  induction w with
  | nil => intro l acc _; simp
  | cons c w' ih =>
    intro l acc hw
    have hc : pyWs c = false := hw c (by simp)
    rw [List.cons_append, pySplitAux, if_neg (by simp [hc])]
    rw [ih l (c :: acc) (fun x hx => hw x (by simp [hx]))]
    simp

/-- `str.split()` is a left inverse of `' '.join` on lists of non-empty
whitespace-free words. -/
theorem pySplit_joinWordsC (ws : List (List Char))
    (h : ∀ w ∈ ws, w ≠ [] ∧ ∀ c ∈ w, pyWs c = false) :
    pySplit (joinWordsC ws) = ws := by
  induction ws with
  | nil => rfl
  | cons w rest ih =>
    obtain ⟨hw1, hw2⟩ := h w (by simp)
    have hwrev : w.reverse.isEmpty = false := by
      cases hr : w.reverse with
      | nil => exact absurd (List.reverse_eq_nil_iff.mp hr) hw1
      | cons _ _ => rfl
    cases rest with
    | nil =>
      unfold pySplit
      rw [show joinWordsC [w] = w ++ [] from by simp [joinWordsC]]
      rw [pySplitAux_append_word w [] [] hw2, List.append_nil]
      rw [pySplitAux, if_neg (by simp [hwrev])]
      simp
    | cons v rest' =>
      unfold pySplit
      rw [show joinWordsC (w :: v :: rest') = w ++ ' ' :: joinWordsC (v :: rest') from by
        simp [joinWordsC]]
      rw [pySplitAux_append_word w _ [] hw2, List.append_nil]
      rw [pySplitAux, if_pos (by decide), if_neg (by simp [hwrev])]
      rw [List.reverse_reverse]
      have := ih (fun x hx => h x (by simp [hx]))
      unfold pySplit at this
      rw [this]

/-- C3 (amended): for a collapsed title (a join of non-empty
whitespace-free words) longer than 40 characters, the truncated title
never exceeds 40 characters; when the first word has at most 39
characters the result is the longest whitespace-aligned prefix whose
length is at most 40 (word-count-maximal, hence length-maximal); when
the first word has 40 or more characters — including exactly 40, where
the claim as stated would still fit it — the result is the first 37
characters with an ellipsis appended. -/
theorem C3_truncation_amended (ws : List (List Char))
    (hws : ∀ w ∈ ws, w ≠ [] ∧ ∀ c ∈ w, pyWs c = false)
    (hlen : 40 < (joinWordsC ws).length) :
    (shopeeTruncate (joinWordsC ws)).length ≤ 40 ∧
    ∀ w1 rest, ws = w1 :: rest →
      (w1.length ≤ 39 →
        ∃ K, 1 ≤ K ∧ K ≤ ws.length ∧
          shopeeTruncate (joinWordsC ws) = joinWordsC (ws.take K) ∧
          (joinWordsC (ws.take K)).length ≤ 40 ∧
          ∀ j, j ≤ ws.length → (joinWordsC (ws.take j)).length ≤ 40 → j ≤ K) ∧
      (40 ≤ w1.length →
        shopeeTruncate (joinWordsC ws) = (joinWordsC ws).take 37 ++ "...".data) := by
  have hsplit : pySplit (joinWordsC ws) = ws := pySplit_joinWordsC ws hws
  cases ws with
  | nil => simp [joinWordsC] at hlen
  | cons w1 rest =>
  obtain ⟨hw1ne, _⟩ := hws w1 (by simp)
  have hw1pos : 1 ≤ w1.length := by
    cases w1 with
    | nil => exact absurd rfl hw1ne
    | cons _ _ => simp
  by_cases h39 : w1.length ≤ 39
  · have hfit : (([] : List Char) ++ ' ' :: w1).length ≤ 40 := by
      simp
      omega
    have hstep : truncGo (w1 :: rest) [] = truncGo rest w1 := by
      rw [truncGo, if_pos hfit]
      rfl
    obtain ⟨k', hk'le, heq, hklen, hmax⟩ := truncGo_opt rest w1 hw1ne
    have hres : truncGo (w1 :: rest) [] = joinWordsC ((w1 :: rest).take (k' + 1)) := by
      rw [hstep, heq, List.take_succ_cons]
    have hresne : (truncGo (w1 :: rest) []).isEmpty = false := by
      rw [hres, List.take_succ_cons]
      cases hjj : joinWordsC (w1 :: rest.take k') with
      | nil =>
        exfalso
        have hlb := le_length_joinWordsC w1 (rest.take k')
        rw [hjj] at hlb
        simp at hlb
        exact hw1ne hlb
      | cons _ _ => rfl
    have hT : shopeeTruncate (joinWordsC (w1 :: rest)) = truncGo (w1 :: rest) [] := by
      rw [shopeeTruncate, if_pos hlen, hsplit,
        if_neg (show ¬(truncGo (w1 :: rest) []).isEmpty = true by simp [hresne])]
    have hKlen : (joinWordsC ((w1 :: rest).take (k' + 1))).length ≤ 40 := by
      rw [List.take_succ_cons]
      cases k' with
      | zero =>
        rw [List.take_zero]
        simp [joinWordsC]
        omega
      | succ k'' => exact hklen (by omega)
    refine ⟨by rw [hT, hres]; exact hKlen, ?_⟩
    intro w1' rest' heqws
    injection heqws with he1 he2
    subst he1
    subst he2
    refine ⟨fun _ => ⟨k' + 1, by omega, by simpa using Nat.succ_le_succ hk'le,
      by rw [hT, hres], hKlen, ?_⟩, fun h40 => absurd h40 (by omega)⟩
    intro j hj hjfit
    cases j with
    | zero => omega
    | succ j' =>
      rw [List.take_succ_cons] at hjfit
      exact Nat.succ_le_succ (hmax j' (by simpa using hj) hjfit)
  · have hnofit : ¬(([] : List Char) ++ ' ' :: w1).length ≤ 40 := by
      simp
      omega
    have hstep : truncGo (w1 :: rest) [] = [] := by
      rw [truncGo, if_neg hnofit]
    have hT : shopeeTruncate (joinWordsC (w1 :: rest)) =
        (joinWordsC (w1 :: rest)).take 37 ++ "...".data := by
      rw [shopeeTruncate, if_pos hlen, hsplit, hstep]
      simp
    refine ⟨?_, ?_⟩
    · rw [hT, List.length_append, List.length_take,
        Nat.min_eq_left (by omega : 37 ≤ (joinWordsC (w1 :: rest)).length)]
      decide
    · intro w1' rest' heqws
      injection heqws with he1 he2
      subst he1
      subst he2
      exact ⟨fun h39' => absurd h39' (by omega), fun _ => hT⟩

/-- The collapsed 43-character title of C3's counterexample: a single
40-character word, a space, and a 2-character word. -/
def t0C3 : List Char := List.replicate 40 'a' ++ ' ' :: ['b', 'b']

/-- A Shopee delivery body whose numbered-list title collapses to `t0C3`. -/
def bodyC3 : String :=
  String.mk ("1. ".data ++ t0C3 ++ "\nTotal Pembayaran: Rp 2.500".data)

/-- C3 (counterexample): the claim says the truncated title is the
longest whitespace-aligned prefix of length at most 40 whenever a word
boundary fits within the budget.  On a title whose first word has
exactly 40 characters, the boundary after that word fits the budget
(`joinWordsC ((pySplit t0C3).take 1)` has length 40), yet the extractor
emits the first 37 characters plus an ellipsis — a mid-word split that
is not equal to any whitespace-aligned prefix of the title. -/
theorem C3_counterexample :
    ((extract_shopee_delivery bodyC3 "s" "d" "t").bind (fun r => r.title)) =
      some (String.mk (List.replicate 37 'a' ++ "...".data)) ∧
    (joinWordsC ((pySplit t0C3).take 1)).length ≤ 40 ∧
    ∀ k, shopeeTruncate t0C3 ≠ joinWordsC ((pySplit t0C3).take k) := by
  refine ⟨by decide, by decide, ?_⟩
  intro k
  match k with
  | 0 => decide
  | 1 => decide
  | n + 2 =>
    have h2 : (pySplit t0C3).length = 2 := by decide
    rw [List.take_of_length_le (show (pySplit t0C3).length ≤ n + 2 by omega)]
    decide

/-- The word list of C3's amended-claim witness (39 + 2 characters). -/
def wsC3 : List (List Char) := [List.replicate 39 'a', ['b', 'b']]

/-- Closed instance of C3's amended claim on `wsC3`. -/
theorem C3_truncation_amended_witness :
    (shopeeTruncate (joinWordsC wsC3)).length ≤ 40 :=
  (C3_truncation_amended wsC3 (by decide) (by decide)).1

end Financebot
